import Mathlib

/-!
Shallow embedding of the aggregation server of `comms-assistant`
(`src/server/main.py` and `src/server/database.py`).

Conventions of the embedding:
* Python `datetime` values are modelled by `PyDatetime`: a total-order key
  `sec` (seconds on a calendar-faithful linear scale) together with the
  `hour`-of-day component, which is the only field the server reads.
* `datetime.fromisoformat` is modelled by `fromisoformat`, a strict parser
  of the basic `YYYY-MM-DD[T| ]HH:MM:SS` ISO-8601 form; a `none` result
  models the `ValueError` the Python function raises on unparsable input.
* Python dicts are modelled by association lists in insertion order
  (`AList.get?` / `AList.set`), `collections.deque(maxlen=n)` by a list with
  `dequeAppend n`, and SQL tables by lists of row structures.
* A Python function that can raise is modelled with `Option`: `none` is an
  exception propagating to the caller.  Mutations performed before the
  raising statement are kept in the returned state, exactly as in Python.
-/

/-- Model of a Python `datetime`: `sec` is a linear-time key (strictly
monotone in the calendar order of the components), `hour` the hour of day. -/
structure PyDatetime where
  sec : Int
  hour : Nat
deriving DecidableEq, Repr

instance : Inhabited PyDatetime := ⟨⟨0, 0⟩⟩

/-- Numeric value of a decimal digit character, `none` otherwise. -/
def digitVal (c : Char) : Option Nat :=
  if c.isDigit then some (c.toNat - 48) else none

/-- Two-digit decimal number. -/
def parse2 (a b : Char) : Option Nat :=
  match digitVal a, digitVal b with
  | some x, some y => some (10 * x + y)
  | _, _ => none

/-- Four-digit decimal number. -/
def parse4 (a b c d : Char) : Option Nat :=
  match digitVal a, digitVal b with
  | some x, some y =>
    match digitVal c, digitVal d with
    | some z, some w => some (1000 * x + 100 * y + 10 * z + w)
    | _, _ => none
  | _, _ => none

/-- Model of `datetime.fromisoformat`: accepts `YYYY-MM-DD HH:MM:SS` or
`YYYY-MM-DDTHH:MM:SS` with in-range components; `none` models the
`ValueError` raised on any other input.  The `sec` key is strictly monotone
in the lexicographic (hence chronological) order of the components. -/
def fromisoformat (s : String) : Option PyDatetime :=
  match s.toList with
  | [y1, y2, y3, y4, a, o1, o2, b, d1, d2, t, h1, h2, c, m1, m2, e, s1, s2] =>
    if a == '-' && b == '-' && (t == 'T' || t == ' ') && c == ':' && e == ':' then
      match parse4 y1 y2 y3 y4, parse2 o1 o2, parse2 d1 d2,
            parse2 h1 h2, parse2 m1 m2, parse2 s1 s2 with
      | some y, some mo, some d, some h, some mi, some se =>
        if 1 ≤ y ∧ 1 ≤ mo ∧ mo ≤ 12 ∧ 1 ≤ d ∧ d ≤ 31 ∧ h ≤ 23 ∧ mi ≤ 59 ∧ se ≤ 59 then
          some ⟨Int.ofNat (((((y * 13 + mo) * 32 + d) * 24 + h) * 60 + mi) * 60 + se), h⟩
        else none
      | _, _, _, _, _, _ => none
    else none
  | _ => none

/-- `Mention` pydantic model (`src/server/main.py`). -/
structure Mention where
  timestamp : String
  channel : String
  user : String
  text : String
  is_question : Bool
  responded : Bool
  client_id : String
  workspace : String := "unknown"
deriving DecidableEq, Repr

/-- `ConversationSummary` pydantic model (`src/server/main.py`). -/
structure ConversationSummary where
  channel : String
  participant_count : Nat
  message_count : Nat
  topics : List String
  start_time : String
  end_time : String
  client_id : String
deriving DecidableEq, Repr

/-- `Stats` pydantic model (`src/server/main.py`). -/
structure Stats where
  client_id : String
  unread_count : Nat
  messages_last_hour : Nat
  active_channels : List String
  timestamp : String
deriving DecidableEq, Repr

/-- Lookup in a Python dict modelled as an association list. -/
def AList.get? {α : Type} (k : String) : List (String × α) → Option α
  | [] => none
  | (k', v) :: xs => if k' == k then some v else AList.get? k xs

/-- `d[k] = v` on a Python dict modelled as an association list: overwrite the
existing binding, else append (dicts keep insertion order). -/
def AList.set {α : Type} (k : String) (v : α) : List (String × α) → List (String × α)
  | [] => [(k, v)]
  | (k', v') :: xs => if k' == k then (k, v) :: xs else (k', v') :: AList.set k v xs

/-- `deque(maxlen := maxlen).append x`: append, evicting from the left when
over capacity. -/
def dequeAppend {α : Type} (maxlen : Nat) (xs : List α) (x : α) : List α :=
  let ys := xs ++ [x]
  if maxlen < ys.length then ys.drop (ys.length - maxlen) else ys

/-- `DataStore` (`src/server/main.py`): the in-memory Hot Cache. -/
structure DataStore where
  mentions : List Mention
  conversations : List ConversationSummary
  stats : List (String × Stats)
  hourly_message_counts : List (String × List Nat)
  connected_clients : List (String × PyDatetime)
deriving DecidableEq, Repr

/-- `DataStore.__init__`: all containers empty. -/
def DataStore.init : DataStore := ⟨[], [], [], [], []⟩

/-- `self.hourly_message_counts[client_id][hour] += 1` on the
`defaultdict(lambda: [0]*24)`: get-or-create the 24-slot array, then bump
slot `hour`. -/
def bumpHour (cid : String) (hour : Nat) (xs : List (String × List Nat)) :
    List (String × List Nat) :=
  match AList.get? cid xs with
  | some arr => AList.set cid (arr.set hour (arr.getD hour 0 + 1)) xs
  | none => xs ++ [(cid, (List.replicate 24 0).set hour 1)]

/-- `DataStore.add_mention`: append to the mention deque, THEN parse the
timestamp and bump the hourly counter.  The returned `Bool` is `false` when
`datetime.fromisoformat` raises: the exception propagates to the caller, but
the append performed before it stands (Python mutates in place). -/
def DataStore.add_mention (s : DataStore) (m : Mention) : DataStore × Bool :=
  let s1 := { s with mentions := dequeAppend 1000 s.mentions m }
  match fromisoformat m.timestamp with
  | none => (s1, false)
  | some dt =>
    ({ s1 with hourly_message_counts := bumpHour m.client_id dt.hour s1.hourly_message_counts },
     true)

/-- `DataStore.add_conversation`: append to the conversation deque
(`maxlen=100`). -/
def DataStore.add_conversation (s : DataStore) (c : ConversationSummary) : DataStore :=
  { s with conversations := dequeAppend 100 s.conversations c }

/-- `DataStore.update_stats`: overwrite the per-client snapshot and stamp
`connected_clients[client_id] = datetime.now()`. -/
def DataStore.update_stats (now : PyDatetime) (s : DataStore) (st : Stats) : DataStore :=
  { s with stats := AList.set st.client_id st s.stats,
           connected_clients := AList.set st.client_id now s.connected_clients }

/-- The list comprehension inside `DataStore.get_recent_mentions`:
`[m for m in mentions if fromisoformat(m.timestamp) > cutoff]`.  `none`
models the `ValueError` aborting the whole comprehension at the first
unparsable timestamp. -/
def filterRecent (cutoff : Int) : List Mention → Option (List Mention)
  | [] => some []
  | m :: ms =>
    match fromisoformat m.timestamp with
    | none => none
    | some dt =>
      match filterRecent cutoff ms with
      | none => none
      | some rest => some (if cutoff < dt.sec then m :: rest else rest)

/-- `DataStore.get_recent_mentions`: time-window filter over the whole deque
(parsing every stored timestamp), then the optional client filter.  No sort
is performed.  `none` models an uncaught `ValueError` (HTTP 500). -/
def DataStore.get_recent_mentions (now : PyDatetime) (s : DataStore) (hours : Nat)
    (client_id : Option String) : Option (List Mention) :=
  let cutoff : Int := now.sec - hours * 3600
  match filterRecent cutoff s.mentions with
  | none => none
  | some ms =>
    some (match client_id with
          | some cid => ms.filter (fun m => m.client_id == cid)
          | none => ms)

/-- Slot-wise accumulation loop of `get_messages_per_hour`:
`for i, count in enumerate(counts): total[i] += count`. -/
def addSlots : List Nat → List Nat → List Nat
  | total, [] => total
  | [], _ => []
  | t :: ts, c :: cs => (t + c) :: addSlots ts cs

/-- `DataStore.get_messages_per_hour`: with a client, that client's 24-slot
array (`dict.get(client_id, [0]*24)`); otherwise the slot-wise sum across all
clients.  The returned list is the `dict(enumerate(...))` map read in key
order 0..23. -/
def DataStore.get_messages_per_hour (s : DataStore) (client_id : Option String) :
    List Nat :=
  match client_id with
  | some cid => (AList.get? cid s.hourly_message_counts).getD (List.replicate 24 0)
  | none =>
    s.hourly_message_counts.foldl (fun total p => addSlots total p.2) (List.replicate 24 0)

/-- A producer submission handled by the ingestion endpoints
(`POST /api/mention`, `POST /api/conversation`, `POST /api/stats`). -/
inductive Op where
  | mention (m : Mention)
  | conversation (c : ConversationSummary)
  | stats (now : PyDatetime) (st : Stats)

/-- Effect of one submission on the Hot Cache (the state after the handler,
whether or not it raised). -/
def DataStore.applyOp (s : DataStore) : Op → DataStore
  | .mention m => (s.add_mention m).1
  | .conversation c => s.add_conversation c
  | .stats now st => s.update_stats now st

/-- Row of the `mentions` table (`DBMention` in `src/server/database.py`);
the surrogate `id` and `created_at` columns are not modelled (no operation
relevant here reads them). -/
structure DBMention where
  timestamp : PyDatetime
  channel : String
  user : String
  text : String
  is_question : Bool
  responded : Bool
  client_id : String
  workspace : String
deriving DecidableEq, Repr

/-- Row of the `channel_activity` table (`DBChannelActivity`). -/
structure DBChannelActivity where
  channel : String
  message_count : Nat
  hour : Nat
  date : String
  client_id : String
  last_updated : PyDatetime
deriving DecidableEq, Repr

/-- Row of the `clients` table (`DBClient`). -/
structure DBClient where
  client_id : String
  hostname : Option String
  last_seen : PyDatetime
  first_seen : PyDatetime
deriving DecidableEq, Repr

/-- The durable store: the three tables of the SQLite database. -/
structure Database where
  mentions : List DBMention
  activity : List DBChannelActivity
  clients : List DBClient
deriving DecidableEq, Repr

/-- The `_mention_unique` key: `(timestamp, channel, user, client_id)`. -/
def mentionKeyMatch (ts : PyDatetime) (channel user client_id : String)
    (q : DBMention) : Bool :=
  q.timestamp == ts && q.channel == channel && q.user == user && q.client_id == client_id

/-- `database.add_mention`: insert, and on the uniqueness-constraint
violation (a row with the same `(timestamp, channel, user, client_id)` is
already present) catch the error, roll back and return `none`. -/
def Database.add_mention (db : Database) (timestamp : PyDatetime)
    (channel user text : String) (is_question responded : Bool)
    (client_id workspace : String) : Database × Option DBMention :=
  if db.mentions.any (mentionKeyMatch timestamp channel user client_id) then
    (db, none)
  else
    let r : DBMention :=
      ⟨timestamp, channel, user, text, is_question, responded, client_id, workspace⟩
    ({ db with mentions := db.mentions ++ [r] }, some r)

/-- The `_activity_unique` key: `(channel, hour, date, client_id)`. -/
def activityKeyMatch (channel : String) (hour : Nat) (date client_id : String)
    (a : DBChannelActivity) : Bool :=
  a.channel == channel && a.hour == hour && a.date == date && a.client_id == client_id

/-- Replace the first element satisfying `p` by its image under `f`
(the mutation of the row returned by `query(...).first()`). -/
def updateFirst {α : Type} (p : α → Bool) (f : α → α) : List α → List α
  | [] => []
  | x :: xs => if p x then f x :: xs else x :: updateFirst p f xs

/-- `database.add_channel_activity`: if a row with the `(channel, hour, date,
client_id)` key exists, add `message_count` to its counter and refresh
`last_updated`; otherwise insert a fresh row (whose `last_updated` defaults
to now). -/
def Database.add_channel_activity (now : PyDatetime) (db : Database)
    (channel : String) (message_count : Nat) (hour : Nat)
    (date client_id : String) : Database :=
  if db.activity.any (activityKeyMatch channel hour date client_id) then
    let bump : DBChannelActivity → DBChannelActivity := fun a =>
      { a with message_count := a.message_count + message_count, last_updated := now }
    { db with activity :=
        updateFirst (activityKeyMatch channel hour date client_id) bump db.activity }
  else
    { db with activity := db.activity ++ [⟨channel, message_count, hour, date, client_id, now⟩] }

/-- `database.get_active_clients`: clients with `last_seen > now - minutes`. -/
def Database.get_active_clients (now : PyDatetime) (db : Database)
    (minutes : Nat := 10) : List DBClient :=
  db.clients.filter (fun c => decide (now.sec - minutes * 60 < c.last_seen.sec))

/-- `database.cleanup_old_data`: hard-delete mentions with
`timestamp < now - days` and activity rows with `date < cutoff_date`, and
return the two deletion counts.  `cutoff_date` stands for
`(now - timedelta(days)).strftime("%Y-%m-%d")`, whose calendar rendering is
datetime-library functionality outside this repository. -/
def Database.cleanup_old_data (now : PyDatetime) (cutoff_date : String)
    (db : Database) (days : Nat) : Database × Nat × Nat :=
  let cutoff : Int := now.sec - days * 86400
  let deletedMentions := (db.mentions.filter (fun m => decide (m.timestamp.sec < cutoff))).length
  let keptMentions := db.mentions.filter (fun m => !decide (m.timestamp.sec < cutoff))
  let deletedActivity := (db.activity.filter (fun a => decide (a.date < cutoff_date))).length
  let keptActivity := db.activity.filter (fun a => !decide (a.date < cutoff_date))
  ({ db with mentions := keptMentions, activity := keptActivity },
   deletedMentions, deletedActivity)

/-- Return value of `database.get_stats`. -/
structure DBStatsResult where
  total_mentions : Nat
  unread_mentions : Nat
  total_clients : Nat
  active_clients : Nat
  mentions_last_24h : Nat
deriving DecidableEq, Repr

/-- `database.get_stats`: aggregate counters computed on demand. -/
def Database.get_stats (now : PyDatetime) (db : Database) : DBStatsResult :=
  { total_mentions := db.mentions.length
    unread_mentions := (db.mentions.filter (fun m => !m.responded)).length
    total_clients := db.clients.length
    active_clients := (db.get_active_clients now).length
    mentions_last_24h :=
      (db.mentions.filter (fun m => decide (now.sec - 24 * 3600 < m.timestamp.sec))).length }

/-- The HTTP acknowledgement of `POST /api/mention`:
`{"status": "received", "mention_id": mention.timestamp}`. -/
structure MentionAck where
  status : String
  mention_id : String
deriving DecidableEq, Repr

/-- The `POST /api/mention` handler `report_mention` together with its
background task `save_mention_to_db`, acting on the cache-and-database pair.
If `DataStore.add_mention` raises (unparsable timestamp), the exception
escapes the handler — modelled by an `none` acknowledgement, which FastAPI
turns into an HTTP 500 server error — and neither the background durable
write nor the broadcast happens; the cache append already performed stands. -/
def report_mention (st : DataStore × Database) (m : Mention) :
    (DataStore × Database) × Option MentionAck :=
  match st.1.add_mention m with
  | (s1, true) =>
    let db1 :=
      match fromisoformat m.timestamp with
      | some dt =>
        (st.2.add_mention dt m.channel m.user m.text m.is_question m.responded
          m.client_id m.workspace).1
      | none => st.2
    ((s1, db1), some ⟨"received", m.timestamp⟩)
  | (s1, false) => ((s1, st.2), none)

/-- The `GET /api/mentions` handler: `store.get_recent_mentions` followed by
the identity `[m.dict() for m in mentions]` serialization. -/
def api_get_mentions (now : PyDatetime) (hours : Nat) (client_id : Option String)
    (s : DataStore) : Option (List Mention) :=
  s.get_recent_mentions now hours client_id

/-- The `GET /api/conversations` handler: `list(store.conversations)[-limit:]`
reversed to most-recent-first.  (Python's `[-0:]` slice is the whole list.) -/
def api_get_conversations (limit : Nat) (s : DataStore) : List ConversationSummary :=
  let convs :=
    if limit == 0 then s.conversations
    else s.conversations.drop (s.conversations.length - limit)
  convs.reverse

/-- `ConnectionManager` (`src/server/main.py`): subscriber sockets are
identified by numbers. -/
structure ConnectionManager where
  active_connections : List Nat
deriving DecidableEq, Repr

/-- Python's `list.remove`: drop the first occurrence; the `ValueError` on a
missing element is swallowed by the surrounding `try/except: pass`, so the
list is returned unchanged. -/
def removeFirst (xs : List Nat) (c : Nat) : List Nat :=
  match xs with
  | [] => []
  | x :: rest => if x == c then rest else x :: removeFirst rest c

/-- The loop body of `ConnectionManager.broadcast`, iterating over the
snapshot copy `active_connections[:]`.  `send c = false` models
`connection.send_json` raising: the failure is swallowed and the connection
removed from the live list.  Returns the live list and the connections that
received the message, in iteration order. -/
def broadcastLoop (send : Nat → Bool) : List Nat → List Nat → List Nat × List Nat
  | cur, [] => (cur, [])
  | cur, c :: cs =>
    if send c then
      let r := broadcastLoop send cur cs
      (r.1, c :: r.2)
    else
      broadcastLoop send (removeFirst cur c) cs

/-- `ConnectionManager.broadcast`: iterate a snapshot copy of the active set,
removing each failing connection; never raises to its caller. -/
def ConnectionManager.broadcast (send : Nat → Bool) (mgr : ConnectionManager) :
    ConnectionManager × List Nat :=
  let r := broadcastLoop send mgr.active_connections mgr.active_connections
  (⟨r.1⟩, r.2)

/-- The `DELETE /api/debug/clear` handler `clear_all_data`: clear the Hot
Cache's mentions, stats snapshots and connected-clients map (and nothing
else), then wipe the durable store with `cleanup_old_data(days=0)`. -/
def clear_all_data (now : PyDatetime) (cutoff_date : String)
    (st : DataStore × Database) : (DataStore × Database) × Nat × Nat :=
  let s := { st.1 with mentions := [], stats := [], connected_clients := [] }
  let r := st.2.cleanup_old_data now cutoff_date 0
  ((s, r.1), r.2)

/-- Whether a list of mentions is sorted descending by (parsed) timestamp. -/
def sortedDescByTimestamp : List Mention → Bool
  | [] => true
  | [_] => true
  | a :: b :: rest =>
    decide (((fromisoformat b.timestamp).map PyDatetime.sec).getD 0
              ≤ ((fromisoformat a.timestamp).map PyDatetime.sec).getD 0)
      && sortedDescByTimestamp (b :: rest)

/-- An empty durable store. -/
def db0 : Database := ⟨[], [], []⟩

/-- A shape-valid mention whose timestamp string is not ISO-8601. -/
def mBad : Mention :=
  ⟨"not-a-timestamp", "eng", "Bob", "is this broken?", true, false, "host-A", "acme"⟩

/-- A mention with an earlier (parseable) timestamp. -/
def mEarly : Mention :=
  ⟨"2024-05-01T10:00:00", "eng", "Bob", "early message", false, false, "host-A", "acme"⟩

/-- A mention with a later (parseable) timestamp. -/
def mLate : Mention :=
  ⟨"2024-05-01T12:00:00", "ops", "Eve", "late message", true, false, "host-A", "acme"⟩

/-- A reference wall-clock instant, 2024-05-01 13:00:00. -/
def nowMay1 : PyDatetime := (fromisoformat "2024-05-01T13:00:00").getD default

/-- The Hot Cache reached from a fresh store by submitting `mEarly` then
`mLate` (arrival order = ascending timestamp). -/
def storeEarlyLate : DataStore :=
  ((DataStore.init.add_mention mEarly).1.add_mention mLate).1

/-- The Hot Cache reached from a fresh store by submitting `mBad` (whose
append stands even though the handler raises) and then `mEarly`. -/
def storeBadEarly : DataStore :=
  ((DataStore.init.add_mention mBad).1.add_mention mEarly).1

/-- The durable row `save_mention_to_db` builds from a submitted mention and
its parsed timestamp. -/
def mentionRow (dt : PyDatetime) (m : Mention) : DBMention :=
  ⟨dt, m.channel, m.user, m.text, m.is_question, m.responded, m.client_id, m.workspace⟩

/-- The time-window test of `get_recent_mentions`:
`fromisoformat(m.timestamp) > cutoff` (false is only used where parsing is
known to succeed). -/
def inWindow (cutoff : Int) (m : Mention) : Bool :=
  match fromisoformat m.timestamp with
  | some dt => decide (cutoff < dt.sec)
  | none => false

/-- The optional client filter of `get_recent_mentions`. -/
def clientMatches (client_id : Option String) (m : Mention) : Bool :=
  match client_id with
  | some cid => m.client_id == cid
  | none => true

/-- A key-identical retry of `mEarly` with a different body text. -/
def mEarlyRetry : Mention :=
  ⟨"2024-05-01T10:00:00", "eng", "Bob", "early message (redelivered)", false, false,
   "host-A", "acme"⟩

/-- The parsed timestamp of `mEarly`. -/
def dtEarly : PyDatetime := (fromisoformat "2024-05-01T10:00:00").getD default

/-- A Hot Cache with hourly histograms for two clients. -/
def storeHourly : DataStore :=
  { DataStore.init with
      hourly_message_counts :=
        [("host-A", ((List.replicate 24 0).set 5 3).set 7 1),
         ("host-B", (List.replicate 24 0).set 5 2)] }

/-- A durable store holding one mention whose (producer-supplied) timestamp
lies one hour in the future of `nowMay1`. -/
def dbFuture : Database :=
  ⟨[⟨⟨nowMay1.sec + 3600, 14⟩, "eng", "Bob", "scheduled reminder", false, false,
     "host-A", "acme"⟩], [], []⟩

/-- A durable store holding one mention with a past timestamp. -/
def dbPast : Database :=
  ⟨[⟨dtEarly, "eng", "Bob", "early message", false, false, "host-A", "acme"⟩], [], []⟩

/-- C1, as stated, is false: `DataStore.add_mention` appends to the mention
FIFO before parsing the timestamp, and no handler converts the `ValueError`
into a 422.  Concretely, submitting `mBad` (timestamp `"not-a-timestamp"`)
leaves `mBad` in the Hot Cache's mention FIFO while the request dies with an
unhandled exception (HTTP 500), contradicting "rejects ... synchronously
with a client-error status and the mention is never added". -/
theorem claimC1_counterexample :
    fromisoformat mBad.timestamp = none ∧
    mBad ∈ (report_mention (DataStore.init, db0) mBad).1.1.mentions ∧
    (report_mention (DataStore.init, db0) mBad).2 = none := by
  refine ⟨by decide, ?_, by decide⟩
  decide

/-- C1 (amended): a mention whose timestamp is not parseable passes shape
validation, is appended to the Hot Cache's mention FIFO, and only then makes
the handler raise, so the producer gets a server error (HTTP 500), not a 422;
the hourly counters, durable store, broadcast and acknowledgement are
untouched. -/
theorem claimC1_mention_with_bad_timestamp (s : DataStore) (db : Database) (m : Mention)
    (hbad : fromisoformat m.timestamp = none) :
    report_mention (s, db) m =
      (({ s with mentions := dequeAppend 1000 s.mentions m }, db), none) := by
  simp [report_mention, DataStore.add_mention, hbad]

/-- Witness for C1's amended theorem at the concrete input `mBad`. -/
theorem claimC1_witness :
    fromisoformat mBad.timestamp = none ∧
    report_mention (DataStore.init, db0) mBad =
      (({ DataStore.init with
            mentions := dequeAppend 1000 DataStore.init.mentions mBad }, db0), none) :=
  ⟨by decide, claimC1_mention_with_bad_timestamp DataStore.init db0 mBad (by decide)⟩

theorem dequeAppend_of_room {α : Type} (c : Nat) (xs : List α) (x : α)
    (h : xs.length < c) : dequeAppend c xs x = xs ++ [x] := by
  simp only [dequeAppend, List.length_append, List.length_cons, List.length_nil]
  rw [if_neg (by omega)]

theorem add_mention_parsed (s : DataStore) (m : Mention) (dt : PyDatetime)
    (h : fromisoformat m.timestamp = some dt) :
    s.add_mention m =
      ({ s with mentions := dequeAppend 1000 s.mentions m,
                hourly_message_counts := bumpHour m.client_id dt.hour s.hourly_message_counts },
       true) := by
  simp [DataStore.add_mention, h]

theorem db_add_mention_fresh (db : Database) (dt : PyDatetime)
    (channel user text : String) (is_question responded : Bool)
    (client_id workspace : String)
    (h : db.mentions.any (mentionKeyMatch dt channel user client_id) = false) :
    db.add_mention dt channel user text is_question responded client_id workspace =
      ({ db with mentions := db.mentions ++
          [⟨dt, channel, user, text, is_question, responded, client_id, workspace⟩] },
       some ⟨dt, channel, user, text, is_question, responded, client_id, workspace⟩) := by
  simp [Database.add_mention, h]

theorem db_add_mention_dup (db : Database) (dt : PyDatetime)
    (channel user text : String) (is_question responded : Bool)
    (client_id workspace : String)
    (h : db.mentions.any (mentionKeyMatch dt channel user client_id) = true) :
    db.add_mention dt channel user text is_question responded client_id workspace =
      (db, none) := by
  simp [Database.add_mention, h]


theorem report_mention_parsed (s : DataStore) (db : Database) (m : Mention)
    (dt : PyDatetime) (h : fromisoformat m.timestamp = some dt) :
    report_mention (s, db) m =
      (({ s with mentions := dequeAppend 1000 s.mentions m,
                 hourly_message_counts :=
                   bumpHour m.client_id dt.hour s.hourly_message_counts },
        (db.add_mention dt m.channel m.user m.text m.is_question m.responded
          m.client_id m.workspace).1),
       some ⟨"received", m.timestamp⟩) := by
  simp [report_mention, DataStore.add_mention, h]

/-- C2: for two submissions with the same `(timestamp, channel, user,
client_id)` key, the second durable insert hits the uniqueness constraint and
is absorbed as a `none` no-op (not an exception): the durable store keeps
exactly the one row written by the first submission, both producers get the
normal `{"status": "received"}` acknowledgement, and the Hot Cache FIFO holds
both entries (no dedup at the cache layer). -/
theorem claimC2_duplicate_mention_absorbed (s : DataStore) (db : Database)
    (m1 m2 : Mention) (dt : PyDatetime)
    (hts : m1.timestamp = m2.timestamp) (hch : m1.channel = m2.channel)
    (hus : m1.user = m2.user) (hcid : m1.client_id = m2.client_id)
    (hparse : fromisoformat m1.timestamp = some dt)
    (hfresh : ∀ q ∈ db.mentions,
      mentionKeyMatch dt m1.channel m1.user m1.client_id q = false)
    (hroom : s.mentions.length + 2 ≤ 1000) :
    (report_mention (report_mention (s, db) m1).1 m2).1.2.mentions.filter
        (mentionKeyMatch dt m1.channel m1.user m1.client_id) =
      [mentionRow dt m1] ∧
    ((report_mention (s, db) m1).1.2.add_mention dt m2.channel m2.user m2.text
        m2.is_question m2.responded m2.client_id m2.workspace).2 = none ∧
    (report_mention (report_mention (s, db) m1).1 m2).1.2 =
      (report_mention (s, db) m1).1.2 ∧
    (report_mention (s, db) m1).2 = some ⟨"received", m1.timestamp⟩ ∧
    (report_mention (report_mention (s, db) m1).1 m2).2 =
      some ⟨"received", m2.timestamp⟩ ∧
    (report_mention (report_mention (s, db) m1).1 m2).1.1.mentions =
      s.mentions ++ [m1, m2] := by
  have hparse2 : fromisoformat m2.timestamp = some dt := hts ▸ hparse
  have hany : db.mentions.any
      (mentionKeyMatch dt m1.channel m1.user m1.client_id) = false := by
    simp only [List.any_eq_false]
    intro q hq
    simp [hfresh q hq]
  have hfr := db_add_mention_fresh db dt m1.channel m1.user m1.text
    m1.is_question m1.responded m1.client_id m1.workspace hany
  have hkeyrow : mentionKeyMatch dt m2.channel m2.user m2.client_id
      (mentionRow dt m1) = true := by
    simp [mentionKeyMatch, mentionRow, hch, hus, hcid]
  have hany2 : (db.mentions ++ [mentionRow dt m1]).any
      (mentionKeyMatch dt m2.channel m2.user m2.client_id) = true := by
    simp only [List.any_append, hkeyrow, List.any_cons, List.any_nil,
      Bool.or_true, Bool.true_or]
  have hnil : db.mentions.filter
      (mentionKeyMatch dt m1.channel m1.user m1.client_id) = [] := by
    rw [List.filter_eq_nil_iff]
    intro q hq
    simp [hfresh q hq]
  have hdup := db_add_mention_dup
    ({ db with mentions := db.mentions ++ [mentionRow dt m1] } : Database)
    dt m2.channel m2.user m2.text m2.is_question m2.responded m2.client_id
    m2.workspace (by simpa [mentionRow] using hany2)
  rw [report_mention_parsed s db m1 dt hparse, hfr]
  rw [show ({ db with mentions := db.mentions ++
        [(⟨dt, m1.channel, m1.user, m1.text, m1.is_question, m1.responded,
           m1.client_id, m1.workspace⟩ : DBMention)] },
      some (⟨dt, m1.channel, m1.user, m1.text, m1.is_question, m1.responded,
           m1.client_id, m1.workspace⟩ : DBMention)).1
    = ({ db with mentions := db.mentions ++ [mentionRow dt m1] } : Database) from rfl]
  rw [report_mention_parsed _ _ m2 dt hparse2, hdup]
  refine ⟨?_, by simp [hdup], rfl, rfl, rfl, ?_⟩
  · simp only [List.filter_append, hnil, List.nil_append]
    simp [mentionKeyMatch, mentionRow]
  · simp only
    rw [dequeAppend_of_room 1000 s.mentions m1 (by omega),
        dequeAppend_of_room 1000 (s.mentions ++ [m1]) m2
          (by simp only [List.length_append, List.length_cons, List.length_nil]; omega)]
    simp

/-- Witness for C2 at the concrete pair `mEarly` / `mEarlyRetry` (same key,
different text) against a fresh cache and durable store. -/
theorem claimC2_witness :
    (mEarly.timestamp = mEarlyRetry.timestamp ∧ mEarly.channel = mEarlyRetry.channel ∧
     mEarly.user = mEarlyRetry.user ∧ mEarly.client_id = mEarlyRetry.client_id ∧
     fromisoformat mEarly.timestamp = some dtEarly ∧
     (∀ q ∈ db0.mentions,
       mentionKeyMatch dtEarly mEarly.channel mEarly.user mEarly.client_id q = false) ∧
     DataStore.init.mentions.length + 2 ≤ 1000) ∧
    ((report_mention (report_mention (DataStore.init, db0) mEarly).1 mEarlyRetry).1.2.mentions.filter
        (mentionKeyMatch dtEarly mEarly.channel mEarly.user mEarly.client_id) =
      [mentionRow dtEarly mEarly] ∧
     ((report_mention (DataStore.init, db0) mEarly).1.2.add_mention dtEarly
        mEarlyRetry.channel mEarlyRetry.user mEarlyRetry.text mEarlyRetry.is_question
        mEarlyRetry.responded mEarlyRetry.client_id mEarlyRetry.workspace).2 = none ∧
     (report_mention (report_mention (DataStore.init, db0) mEarly).1 mEarlyRetry).1.2 =
       (report_mention (DataStore.init, db0) mEarly).1.2 ∧
     (report_mention (DataStore.init, db0) mEarly).2 =
       some ⟨"received", mEarly.timestamp⟩ ∧
     (report_mention (report_mention (DataStore.init, db0) mEarly).1 mEarlyRetry).2 =
       some ⟨"received", mEarlyRetry.timestamp⟩ ∧
     (report_mention (report_mention (DataStore.init, db0) mEarly).1 mEarlyRetry).1.1.mentions =
       DataStore.init.mentions ++ [mEarly, mEarlyRetry]) :=
  ⟨⟨rfl, rfl, rfl, rfl, by decide, by decide, by decide⟩,
   claimC2_duplicate_mention_absorbed DataStore.init db0 mEarly mEarlyRetry dtEarly
     rfl rfl rfl rfl (by decide) (by decide) (by decide)⟩

theorem filterRecent_total (cutoff : Int) (l : List Mention)
    (hall : ∀ m ∈ l, (fromisoformat m.timestamp).isSome = true) :
    filterRecent cutoff l = some (l.filter (inWindow cutoff)) := by
  induction l with
  | nil => rfl
  | cons m ms ih =>
    obtain ⟨dt, hdt⟩ : ∃ dt, fromisoformat m.timestamp = some dt := by
      have := hall m (List.mem_cons_self m ms)
      exact Option.isSome_iff_exists.mp this
    have hms := ih (fun x hx => hall x (List.mem_cons_of_mem m hx))
    simp only [filterRecent, hdt, hms, List.filter_cons, inWindow]
    by_cases hlt : cutoff < dt.sec
    · simp [hlt]
    · simp [hlt]

theorem filterRecent_fatal (cutoff : Int) (l : List Mention)
    (hbad : ∃ m ∈ l, fromisoformat m.timestamp = none) :
    filterRecent cutoff l = none := by
  induction l with
  | nil => simp at hbad
  | cons m ms ih =>
    rcases hbad with ⟨x, hx, hxp⟩
    rcases List.mem_cons.mp hx with rfl | hxs
    · simp [filterRecent, hxp]
    · cases hm : fromisoformat m.timestamp with
      | none => simp [filterRecent, hm]
      | some dt => simp [filterRecent, hm, ih ⟨x, hxs, hxp⟩]

/-- C3, as stated, is false: `GET /api/mentions` performs no read-time sort.
Concretely, with the cache holding `mEarly` then `mLate` (arrival order,
ascending timestamps), the endpoint returns `[mEarly, mLate]`, which is not
descending by timestamp. -/
theorem claimC3_counterexample :
    api_get_mentions nowMay1 24 none storeEarlyLate = some [mEarly, mLate] ∧
    sortedDescByTimestamp [mEarly, mLate] = false := by
  exact ⟨by decide, by decide⟩

/-- C3 (amended): `GET /api/mentions` returns the matching mentions (time
window, then optional client filter) in cache arrival order — a filter of the
FIFO, hence a subsequence of it — with no descending-timestamp sort applied
(the descending sort exists only in the Durable Store's query, which this
endpoint does not use). -/
theorem claimC3_mentions_in_arrival_order (now : PyDatetime) (s : DataStore)
    (hours : Nat) (cid : Option String)
    (hall : ∀ m ∈ s.mentions, (fromisoformat m.timestamp).isSome = true) :
    api_get_mentions now hours cid s =
      some ((s.mentions.filter (inWindow (now.sec - hours * 3600))).filter
              (clientMatches cid)) ∧
    ∀ l, api_get_mentions now hours cid s = some l → l.Sublist s.mentions := by
  have hmain : api_get_mentions now hours cid s =
      some ((s.mentions.filter (inWindow (now.sec - hours * 3600))).filter
              (clientMatches cid)) := by
    simp only [api_get_mentions, DataStore.get_recent_mentions,
      filterRecent_total (now.sec - hours * 3600) s.mentions hall]
    cases cid with
    | none => simp [clientMatches]
    | some c => simp [clientMatches]
  refine ⟨hmain, fun l hl => ?_⟩
  rw [hmain] at hl
  cases hl
  exact ((List.filter_sublist _).trans (List.filter_sublist _))

/-- Witness for C3's amended theorem at the concrete cache
`storeEarlyLate`. -/
theorem claimC3_witness :
    (∀ m ∈ storeEarlyLate.mentions, (fromisoformat m.timestamp).isSome = true) ∧
    (api_get_mentions nowMay1 24 none storeEarlyLate =
      some ((storeEarlyLate.mentions.filter (inWindow (nowMay1.sec - 24 * 3600))).filter
              (clientMatches none)) ∧
     ∀ l, api_get_mentions nowMay1 24 none storeEarlyLate = some l →
       l.Sublist storeEarlyLate.mentions) :=
  ⟨by decide, claimC3_mentions_in_arrival_order nowMay1 storeEarlyLate 24 none (by decide)⟩

/-- C4, as stated, is false: the time-window comprehension parses every
stored timestamp and the first `ValueError` aborts the whole query.
Concretely, with the cache holding the unparsable `mBad` next to the
perfectly good `mEarly`, the query returns nothing at all (an exception),
while the same query over `mEarly` alone returns `[mEarly]`. -/
theorem claimC4_counterexample :
    fromisoformat mBad.timestamp = none ∧
    storeBadEarly.get_recent_mentions nowMay1 24 none = none ∧
    (DataStore.init.add_mention mEarly).1.get_recent_mentions nowMay1 24 none =
      some [mEarly] := by
  exact ⟨by decide, by decide, by decide⟩

/-- C4 (amended): a query-time parse failure is fatal to the whole query: if
any stored mention's timestamp fails to parse, `get_recent_mentions` raises
(HTTP 500) instead of skipping the offending record. -/
theorem claimC4_parse_failure_fatal (now : PyDatetime) (s : DataStore)
    (hours : Nat) (cid : Option String)
    (hbad : ∃ m ∈ s.mentions, fromisoformat m.timestamp = none) :
    s.get_recent_mentions now hours cid = none := by
  simp only [DataStore.get_recent_mentions,
    filterRecent_fatal (now.sec - hours * 3600) s.mentions hbad]

/-- Witness for C4's amended theorem at the concrete cache `storeBadEarly`. -/
theorem claimC4_witness :
    (∃ m ∈ storeBadEarly.mentions, fromisoformat m.timestamp = none) ∧
    storeBadEarly.get_recent_mentions nowMay1 24 none = none :=
  ⟨by decide, claimC4_parse_failure_fatal nowMay1 storeBadEarly 24 none (by decide)⟩

theorem add_mention_mentions (s : DataStore) (m : Mention) :
    (s.add_mention m).1.mentions = dequeAppend 1000 s.mentions m := by
  unfold DataStore.add_mention
  cases fromisoformat m.timestamp <;> rfl

theorem add_mention_conversations (s : DataStore) (m : Mention) :
    (s.add_mention m).1.conversations = s.conversations := by
  unfold DataStore.add_mention
  cases fromisoformat m.timestamp <;> rfl

theorem dequeAppend_length_le {α : Type} (c : Nat) (xs : List α) (x : α)
    (h : xs.length ≤ c) : (dequeAppend c xs x).length ≤ c := by
  simp only [dequeAppend, List.length_append, List.length_cons, List.length_nil]
  by_cases hc : c < xs.length + (0 + 1)
  · rw [if_pos hc]
    simp only [List.length_drop, List.length_append, List.length_cons, List.length_nil]
    omega
  · rw [if_neg hc]
    simp only [List.length_append, List.length_cons, List.length_nil]
    omega

theorem applyOp_inv (s : DataStore) (op : Op)
    (h1 : s.mentions.length ≤ 1000) (h2 : s.conversations.length ≤ 100) :
    (s.applyOp op).mentions.length ≤ 1000 ∧
    (s.applyOp op).conversations.length ≤ 100 := by
  cases op with
  | mention m =>
    simp only [DataStore.applyOp, add_mention_mentions, add_mention_conversations]
    exact ⟨dequeAppend_length_le 1000 s.mentions m h1, h2⟩
  | conversation c =>
    simp only [DataStore.applyOp, DataStore.add_conversation]
    exact ⟨h1, dequeAppend_length_le 100 s.conversations c h2⟩
  | stats now st =>
    simp only [DataStore.applyOp, DataStore.update_stats]
    exact ⟨h1, h2⟩

theorem foldl_applyOp_inv (ops : List Op) :
    ∀ s : DataStore, s.mentions.length ≤ 1000 → s.conversations.length ≤ 100 →
      (ops.foldl DataStore.applyOp s).mentions.length ≤ 1000 ∧
      (ops.foldl DataStore.applyOp s).conversations.length ≤ 100 := by
  induction ops with
  | nil => exact fun s h1 h2 => ⟨h1, h2⟩
  | cons op ops ih =>
    intro s h1 h2
    have h := applyOp_inv s op h1 h2
    exact ih (s.applyOp op) h.1 h.2

theorem foldl_mentions_eq (ms : List Mention) :
    ∀ s : DataStore,
      (ms.foldl (fun s m => (s.add_mention m).1) s).mentions =
        ms.foldl (dequeAppend 1000) s.mentions := by
  induction ms with
  | nil => exact fun _ => rfl
  | cons m ms ih =>
    intro s
    rw [List.foldl_cons, List.foldl_cons, ih, add_mention_mentions]

theorem foldl_dequeAppend_no_evict {α : Type} (c : Nat) (ms : List α) :
    ∀ xs : List α, xs.length + ms.length ≤ c →
      List.foldl (dequeAppend c) xs ms = xs ++ ms := by
  induction ms with
  | nil => intro xs _; simp
  | cons m ms ih =>
    intro xs h
    rw [List.foldl_cons, dequeAppend_of_room c xs m (by simp at h; omega)]
    rw [ih (xs ++ [m]) (by simp at h ⊢; omega)]
    simp

theorem dequeAppend_full {α : Type} (c : Nat) (xs : List α) (x : α)
    (hc : 0 < c) (h : xs.length = c) : dequeAppend c xs x = xs.drop 1 ++ [x] := by
  have hlen : (xs ++ [x]).length = c + 1 := by simp [h]
  simp only [dequeAppend, hlen]
  rw [if_pos (Nat.lt_succ_self c)]
  rw [show c + 1 - c = 1 from by omega]
  exact List.drop_append_of_le_length (by omega)

/-- C5: over any sequence of submissions from a fresh server, the mention
FIFO never exceeds 1000 entries and the conversation FIFO never exceeds 100;
and after any 1001 mention submissions exactly 1000 remain, namely all but
the first-inserted (oldest) one. -/
theorem claimC5_bounded_fifo (ops : List Op) (ms : List Mention)
    (h : ms.length = 1001) :
    ((ops.foldl DataStore.applyOp DataStore.init).mentions.length ≤ 1000 ∧
     (ops.foldl DataStore.applyOp DataStore.init).conversations.length ≤ 100) ∧
    ((ms.foldl (fun s m => (s.add_mention m).1) DataStore.init).mentions =
       ms.drop 1 ∧
     (ms.foldl (fun s m => (s.add_mention m).1) DataStore.init).mentions.length = 1000) := by
  refine ⟨foldl_applyOp_inv ops DataStore.init (by simp [DataStore.init])
    (by simp [DataStore.init]), ?_, ?_⟩
  · have hne : ms ≠ [] := by intro hc; rw [hc] at h; simp at h
    have hsplit : ms = ms.dropLast ++ [ms.getLast hne] := (List.dropLast_append_getLast hne).symm
    have hdl : ms.dropLast.length = 1000 := by
      rw [List.length_dropLast, h]
    rw [foldl_mentions_eq ms DataStore.init]
    calc ms.foldl (dequeAppend 1000) DataStore.init.mentions
        = (ms.dropLast ++ [ms.getLast hne]).foldl (dequeAppend 1000) [] := by
          rw [← hsplit]; rfl
      _ = dequeAppend 1000 (List.foldl (dequeAppend 1000) [] ms.dropLast) (ms.getLast hne) := by
          rw [List.foldl_append]; rfl
      _ = dequeAppend 1000 ms.dropLast (ms.getLast hne) := by
          rw [foldl_dequeAppend_no_evict 1000 ms.dropLast [] (by simp [hdl])]
          simp
      _ = ms.dropLast.drop 1 ++ [ms.getLast hne] := by
          exact dequeAppend_full 1000 ms.dropLast (ms.getLast hne) (by omega) hdl
      _ = (ms.dropLast ++ [ms.getLast hne]).drop 1 := by
          rw [List.drop_append_of_le_length (by omega)]
      _ = ms.drop 1 := by rw [← hsplit]
  · rw [foldl_mentions_eq ms DataStore.init]
    have hne : ms ≠ [] := by intro hc; rw [hc] at h; simp at h
    have hsplit : ms = ms.dropLast ++ [ms.getLast hne] := (List.dropLast_append_getLast hne).symm
    have hdl : ms.dropLast.length = 1000 := by rw [List.length_dropLast, h]
    calc (ms.foldl (dequeAppend 1000) DataStore.init.mentions).length
        = (dequeAppend 1000 ms.dropLast (ms.getLast hne)).length := by
          conv_lhs => rw [hsplit]
          rw [List.foldl_append]
          rw [show DataStore.init.mentions = ([] : List Mention) from rfl]
          rw [foldl_dequeAppend_no_evict 1000 ms.dropLast [] (by simp [hdl])]
          simp
      _ = 1000 := by
          rw [dequeAppend_full 1000 ms.dropLast (ms.getLast hne) (by omega) hdl]
          simp [hdl]

/-- Witness for C5 at the concrete sequence of 1001 submissions of `mEarly`
(and the empty operation sequence for the invariant half). -/
theorem claimC5_witness :
    (List.replicate 1001 mEarly).length = 1001 ∧
    ((([] : List Op).foldl DataStore.applyOp DataStore.init).mentions.length ≤ 1000 ∧
     (([] : List Op).foldl DataStore.applyOp DataStore.init).conversations.length ≤ 100) ∧
    (((List.replicate 1001 mEarly).foldl (fun s m => (s.add_mention m).1)
        DataStore.init).mentions = (List.replicate 1001 mEarly).drop 1 ∧
     ((List.replicate 1001 mEarly).foldl (fun s m => (s.add_mention m).1)
        DataStore.init).mentions.length = 1000) :=
  ⟨by rw [List.length_replicate],
   claimC5_bounded_fifo [] (List.replicate 1001 mEarly) (by rw [List.length_replicate])⟩

theorem removeFirst_append (done : List Nat) (c : Nat) (cs : List Nat)
    (h : ∀ x ∈ done, x ≠ c) : removeFirst (done ++ c :: cs) c = done ++ cs := by
  induction done with
  | nil => simp [removeFirst]
  | cons y ys ih =>
    have hy : y ≠ c := h y (List.mem_cons_self y ys)
    simp only [List.cons_append, removeFirst, beq_iff_eq, if_neg hy, List.append_eq]
    rw [ih (fun x hx => h x (List.mem_cons_of_mem y hx))]

theorem broadcastLoop_eq (send : Nat → Bool) (ys : List Nat) :
    ∀ done : List Nat, (∀ c ∈ done, send c = true) →
      broadcastLoop send (done ++ ys) ys =
        (done ++ ys.filter send, ys.filter send) := by
  induction ys with
  | nil => intro done _; simp [broadcastLoop]
  | cons c cs ih =>
    intro done h
    by_cases hc : send c = true
    · simp only [broadcastLoop, hc, if_true]
      have hrw : done ++ c :: cs = (done ++ [c]) ++ cs := by simp
      rw [hrw, ih (done ++ [c]) ?_]
      · simp [List.filter_cons, hc]
      · intro x hx
        rcases List.mem_append.mp hx with h1 | h2
        · exact h x h1
        · simp only [List.mem_singleton] at h2
          rw [h2]
          exact hc
    · have hc' : send c = false := Bool.eq_false_iff.mpr hc
      have hnc : ∀ x ∈ done, x ≠ c := by
        intro x hx heq
        have hs := h x hx
        rw [heq, hc'] at hs
        exact Bool.false_ne_true hs
      simp only [broadcastLoop, hc', if_false, Bool.false_eq_true]
      rw [removeFirst_append done c cs hnc, ih done h]
      simp [List.filter_cons, hc']

/-- C6: a broadcast removes exactly the connections whose send failed, the
failures are swallowed (the loop returns normally), every non-failing
connection receives the message, and any subsequent broadcast whose sends
succeed on the survivors reaches all of them. -/
theorem claimC6_broadcast_isolation (send : Nat → Bool) (mgr : ConnectionManager) :
    (mgr.broadcast send).1.active_connections = mgr.active_connections.filter send ∧
    (mgr.broadcast send).2 = mgr.active_connections.filter send ∧
    ∀ send2 : Nat → Bool,
      (∀ c ∈ mgr.active_connections.filter send, send2 c = true) →
      ((mgr.broadcast send).1.broadcast send2).2 =
        mgr.active_connections.filter send := by
  have hb := broadcastLoop_eq send mgr.active_connections [] (by intro c hc; simp at hc)
  simp only [List.nil_append] at hb
  refine ⟨?_, ?_, ?_⟩
  · simp [ConnectionManager.broadcast, hb]
  · simp [ConnectionManager.broadcast, hb]
  · intro send2 h2
    have hb1 : (mgr.broadcast send).1 = ⟨mgr.active_connections.filter send⟩ := by
      simp [ConnectionManager.broadcast, hb]
    have hb2 := broadcastLoop_eq send2 (mgr.active_connections.filter send) []
      (by intro c hc; simp at hc)
    simp only [List.nil_append] at hb2
    rw [hb1]
    simp [ConnectionManager.broadcast, hb2, List.filter_eq_self.mpr h2]

theorem updateFirst_append {α : Type} (p : α → Bool) (f : α → α) (l : List α) (r : α)
    (h : ∀ x ∈ l, p x = false) (hr : p r = true) :
    updateFirst p f (l ++ [r]) = l ++ [f r] := by
  induction l with
  | nil => simp [updateFirst, hr]
  | cons x xs ih =>
    have hx := h x (List.mem_cons_self x xs)
    simp only [List.cons_append, updateFirst, hx, Bool.false_eq_true, if_false,
      List.append_eq]
    rw [ih (fun y hy => h y (List.mem_cons_of_mem x hy))]

theorem filter_append_singleton {α : Type} (p : α → Bool) (l : List α) (r : α)
    (h : ∀ x ∈ l, p x = false) (hr : p r = true) :
    (l ++ [r]).filter p = [r] := by
  rw [List.filter_append]
  have hnil : l.filter p = [] := List.filter_eq_nil_iff.mpr (fun a ha => by simp [h a ha])
  simp [hnil, List.filter_cons, hr]

/-- C7: channel-activity upserts for one `(channel, hour, date, client_id)`
key accumulate into a single row whose counter is the running sum of the
submitted counts, with `last_updated` refreshed to the clock of each call
(counts `a`, `b`, `c` generalize the claim's 2, 3, 5 summing to 10). -/
theorem claimC7_activity_accumulates (db : Database) (now1 now2 now3 : PyDatetime)
    (ch : String) (a b c : Nat) (hr : Nat) (dt cid : String)
    (hfresh : ∀ x ∈ db.activity, activityKeyMatch ch hr dt cid x = false) :
    (Database.add_channel_activity now1 db ch a hr dt cid).activity.filter
        (activityKeyMatch ch hr dt cid) = [⟨ch, a, hr, dt, cid, now1⟩] ∧
    (Database.add_channel_activity now2
        (Database.add_channel_activity now1 db ch a hr dt cid)
        ch b hr dt cid).activity.filter (activityKeyMatch ch hr dt cid) =
      [⟨ch, a + b, hr, dt, cid, now2⟩] ∧
    (Database.add_channel_activity now3
        (Database.add_channel_activity now2
          (Database.add_channel_activity now1 db ch a hr dt cid)
          ch b hr dt cid)
        ch c hr dt cid).activity.filter (activityKeyMatch ch hr dt cid) =
      [⟨ch, a + b + c, hr, dt, cid, now3⟩] := by
  have hany1 : db.activity.any (activityKeyMatch ch hr dt cid) = false := by
    simp only [List.any_eq_false]
    intro x hx
    simp [hfresh x hx]
  have hk1 : activityKeyMatch ch hr dt cid
      (⟨ch, a, hr, dt, cid, now1⟩ : DBChannelActivity) = true := by
    simp [activityKeyMatch]
  have h1 : Database.add_channel_activity now1 db ch a hr dt cid =
      { db with activity := db.activity ++ [⟨ch, a, hr, dt, cid, now1⟩] } := by
    simp [Database.add_channel_activity, hany1]
  have hany2 : (db.activity ++
      [(⟨ch, a, hr, dt, cid, now1⟩ : DBChannelActivity)]).any
        (activityKeyMatch ch hr dt cid) = true := by
    simp [List.any_append, hk1]
  have h2 : Database.add_channel_activity now2
      ({ db with activity := db.activity ++ [⟨ch, a, hr, dt, cid, now1⟩] } : Database)
      ch b hr dt cid =
      { db with activity := db.activity ++ [⟨ch, a + b, hr, dt, cid, now2⟩] } := by
    simp only [Database.add_channel_activity, hany2, if_true]
    rw [updateFirst_append (activityKeyMatch ch hr dt cid) _ db.activity _ hfresh hk1]
  have hk2 : activityKeyMatch ch hr dt cid
      (⟨ch, a + b, hr, dt, cid, now2⟩ : DBChannelActivity) = true := by
    simp [activityKeyMatch]
  have hany3 : (db.activity ++
      [(⟨ch, a + b, hr, dt, cid, now2⟩ : DBChannelActivity)]).any
        (activityKeyMatch ch hr dt cid) = true := by
    simp [List.any_append, hk2]
  have h3 : Database.add_channel_activity now3
      ({ db with activity := db.activity ++ [⟨ch, a + b, hr, dt, cid, now2⟩] } : Database)
      ch c hr dt cid =
      { db with activity := db.activity ++ [⟨ch, a + b + c, hr, dt, cid, now3⟩] } := by
    simp only [Database.add_channel_activity, hany3, if_true]
    rw [updateFirst_append (activityKeyMatch ch hr dt cid) _ db.activity _ hfresh hk2]
  rw [h1, h2, h3]
  exact ⟨filter_append_singleton _ _ _ hfresh hk1,
         filter_append_singleton _ _ _ hfresh hk2,
         filter_append_singleton _ _ _ hfresh (by simp [activityKeyMatch])⟩

/-- Witness for C7 at the claim's concrete counts 2, 3, 5 (summing to 10)
against an empty durable store. -/
theorem claimC7_witness :
    (∀ x ∈ db0.activity, activityKeyMatch "eng" 9 "2024-05-01" "host-A" x = false) ∧
    ((Database.add_channel_activity ⟨100, 9⟩ db0 "eng" 2 9 "2024-05-01" "host-A").activity.filter
        (activityKeyMatch "eng" 9 "2024-05-01" "host-A") =
      [⟨"eng", 2, 9, "2024-05-01", "host-A", ⟨100, 9⟩⟩] ∧
     (Database.add_channel_activity ⟨200, 9⟩
        (Database.add_channel_activity ⟨100, 9⟩ db0 "eng" 2 9 "2024-05-01" "host-A")
        "eng" 3 9 "2024-05-01" "host-A").activity.filter
        (activityKeyMatch "eng" 9 "2024-05-01" "host-A") =
      [⟨"eng", 2 + 3, 9, "2024-05-01", "host-A", ⟨200, 9⟩⟩] ∧
     (Database.add_channel_activity ⟨300, 9⟩
        (Database.add_channel_activity ⟨200, 9⟩
          (Database.add_channel_activity ⟨100, 9⟩ db0 "eng" 2 9 "2024-05-01" "host-A")
          "eng" 3 9 "2024-05-01" "host-A")
        "eng" 5 9 "2024-05-01" "host-A").activity.filter
        (activityKeyMatch "eng" 9 "2024-05-01" "host-A") =
      [⟨"eng", 2 + 3 + 5, 9, "2024-05-01", "host-A", ⟨300, 9⟩⟩]) :=
  ⟨by decide,
   claimC7_activity_accumulates db0 ⟨100, 9⟩ ⟨200, 9⟩ ⟨300, 9⟩ "eng" 2 3 5 9
     "2024-05-01" "host-A" (by decide)⟩

/-- C8, as stated, is false: `cleanup_old_data(days=0)` deletes only mentions
with `timestamp < now`, and timestamps are producer-supplied.  Concretely,
`dbFuture` holds one mention dated one hour in the future; after
`cleanup(days=0)` the row survives, and `get_stats` reports
`total_mentions = 1`, not `0`. -/
theorem claimC8_counterexample :
    dbFuture.mentions ≠ [] ∧
    ¬ (Database.get_stats nowMay1
        (Database.cleanup_old_data nowMay1 "2024-05-01" dbFuture 0).1).total_mentions = 0 := by
  exact ⟨by decide, by decide⟩

/-- C8 (amended): `cleanup(days=0)` deletes exactly the mentions whose
timestamp is strictly before the current time; whenever every stored
mention's timestamp is in the past — the normal situation — the table is
emptied and an immediately following `get_stats` reports
`total_mentions = 0`.  A mention with a timestamp at or after `now`
survives the wipe. -/
theorem claimC8_cleanup_zero_days (db : Database) (now now2 : PyDatetime)
    (cutoff_date : String)
    (hpast : ∀ m ∈ db.mentions, m.timestamp.sec < now.sec) :
    (Database.cleanup_old_data now cutoff_date db 0).1.mentions =
      db.mentions.filter (fun m => !decide (m.timestamp.sec < now.sec)) ∧
    (Database.cleanup_old_data now cutoff_date db 0).1.mentions = [] ∧
    (Database.get_stats now2
      (Database.cleanup_old_data now cutoff_date db 0).1).total_mentions = 0 := by
  have hcut : now.sec - (0 : Nat) * 86400 = now.sec := by simp
  have hkeep : (Database.cleanup_old_data now cutoff_date db 0).1.mentions =
      db.mentions.filter (fun m => !decide (m.timestamp.sec < now.sec)) := by
    simp [Database.cleanup_old_data]
  have hnil : db.mentions.filter (fun m => !decide (m.timestamp.sec < now.sec)) = [] := by
    rw [List.filter_eq_nil_iff]
    intro m hm
    simp [hpast m hm]
  refine ⟨hkeep, hkeep.trans hnil, ?_⟩
  simp [Database.get_stats, hkeep.trans hnil]

/-- Witness for C8's amended theorem at the concrete store `dbPast`, whose
single mention predates `nowMay1`. -/
theorem claimC8_witness :
    (∀ m ∈ dbPast.mentions, m.timestamp.sec < nowMay1.sec) ∧
    ((Database.cleanup_old_data nowMay1 "2024-05-01" dbPast 0).1.mentions =
      dbPast.mentions.filter (fun m => !decide (m.timestamp.sec < nowMay1.sec)) ∧
     (Database.cleanup_old_data nowMay1 "2024-05-01" dbPast 0).1.mentions = [] ∧
     (Database.get_stats nowMay1
       (Database.cleanup_old_data nowMay1 "2024-05-01" dbPast 0).1).total_mentions = 0) :=
  ⟨by decide, claimC8_cleanup_zero_days dbPast nowMay1 nowMay1 "2024-05-01" (by decide)⟩

theorem addSlots_length (t : List Nat) : ∀ c : List Nat, (addSlots t c).length = t.length := by
  induction t with
  | nil => intro c; cases c <;> rfl
  | cons x ts ih =>
    intro c
    cases c with
    | nil => rfl
    | cons y cs => simp [addSlots, ih cs]

theorem addSlots_getD (t : List Nat) :
    ∀ (c : List Nat) (h : Nat), h < t.length →
      (addSlots t c).getD h 0 = t.getD h 0 + c.getD h 0 := by
  induction t with
  | nil => intro c h hh; simp at hh
  | cons x ts ih =>
    intro c h hh
    cases c with
    | nil => simp [addSlots]
    | cons y cs =>
      cases h with
      | zero => simp [addSlots]
      | succ h =>
        simp only [addSlots, List.getD_cons_succ]
        exact ih cs h (by simp at hh; omega)

theorem foldl_addSlots_getD (entries : List (String × List Nat)) (h : Nat) :
    ∀ total : List Nat, h < total.length →
      (entries.foldl (fun tot p => addSlots tot p.2) total).getD h 0 =
        total.getD h 0 + (entries.map (fun p => p.2.getD h 0)).sum := by
  induction entries with
  | nil => intro total _; simp
  | cons p ps ih =>
    intro total hlt
    rw [List.foldl_cons, ih (addSlots total p.2) (by rw [addSlots_length]; exact hlt)]
    rw [addSlots_getD total p.2 h hlt]
    simp [List.map_cons, List.sum_cons]
    omega

/-- C9: `get_messages_per_hour` with no client returns, at each hour
`h < 24`, the slot-wise sum over all clients of that client's hourly array;
with a client it returns exactly that client's stored 24-slot array, and the
all-zero 24-slot array for an unknown client. -/
theorem claimC9_messages_per_hour (s : DataStore) (h : Nat) (hh : h < 24)
    (hlen : ∀ p ∈ s.hourly_message_counts, p.2.length = 24) :
    (s.get_messages_per_hour none).getD h 0 =
      (s.hourly_message_counts.map (fun p => p.2.getD h 0)).sum ∧
    (∀ cid arr, AList.get? cid s.hourly_message_counts = some arr →
      s.get_messages_per_hour (some cid) = arr) ∧
    (∀ cid, AList.get? cid s.hourly_message_counts = none →
      s.get_messages_per_hour (some cid) = List.replicate 24 0 ∧
      (s.get_messages_per_hour (some cid)).getD h 0 = 0) := by
  have _ := hlen
  have hz : ∀ n k : Nat, (List.replicate n (0 : Nat)).getD k 0 = 0 := by
    intro n
    induction n with
    | zero => intro k; simp
    | succ n ih =>
      intro k
      cases k with
      | zero => simp [List.replicate_succ]
      | succ k => simp [List.replicate_succ, List.getD_cons_succ, ih k]
  have hz24 : (List.replicate 24 (0 : Nat)).getD h 0 = 0 := hz 24 h
  refine ⟨?_, ?_, ?_⟩
  · have h1 := foldl_addSlots_getD s.hourly_message_counts h (List.replicate 24 0)
      (by simp [hh])
    calc (s.get_messages_per_hour none).getD h 0
        = (List.replicate 24 0).getD h 0 +
            (s.hourly_message_counts.map (fun p => p.2.getD h 0)).sum := h1
      _ = (s.hourly_message_counts.map (fun p => p.2.getD h 0)).sum := by
          rw [hz24, Nat.zero_add]
  · intro cid arr harr
    simp [DataStore.get_messages_per_hour, harr]
  · intro cid hnone
    refine ⟨by simp [DataStore.get_messages_per_hour, hnone], ?_⟩
    show ((AList.get? cid s.hourly_message_counts).getD (List.replicate 24 0)).getD h 0 = 0
    rw [hnone]
    exact hz24

/-- Witness for C9 at the concrete cache `storeHourly` and hour 5. -/
theorem claimC9_witness :
    ((5 : Nat) < 24 ∧ ∀ p ∈ storeHourly.hourly_message_counts, p.2.length = 24) ∧
    ((storeHourly.get_messages_per_hour none).getD 5 0 =
      (storeHourly.hourly_message_counts.map (fun p => p.2.getD 5 0)).sum ∧
     (∀ cid arr, AList.get? cid storeHourly.hourly_message_counts = some arr →
       storeHourly.get_messages_per_hour (some cid) = arr) ∧
     (∀ cid, AList.get? cid storeHourly.hourly_message_counts = none →
       storeHourly.get_messages_per_hour (some cid) = List.replicate 24 0 ∧
       (storeHourly.get_messages_per_hour (some cid)).getD 5 0 = 0)) :=
  ⟨⟨by decide, by decide⟩,
   claimC9_messages_per_hour storeHourly 5 (by decide) (by decide)⟩

/-- C10: the debug clear empties exactly the Hot Cache's mention FIFO, stats
snapshots and connected-clients map, while the per-client hourly counts and
the conversation FIFO are left unchanged, so `GET /api/messages-per-hour` and
`GET /api/conversations` still return the pre-clear data. -/
theorem claimC10_clear_frame (s : DataStore) (db : Database) (now : PyDatetime)
    (cutoff_date : String) (cid : Option String) (limit : Nat) :
    (clear_all_data now cutoff_date (s, db)).1.1.mentions = [] ∧
    (clear_all_data now cutoff_date (s, db)).1.1.stats = [] ∧
    (clear_all_data now cutoff_date (s, db)).1.1.connected_clients = [] ∧
    (clear_all_data now cutoff_date (s, db)).1.1.hourly_message_counts =
      s.hourly_message_counts ∧
    (clear_all_data now cutoff_date (s, db)).1.1.conversations = s.conversations ∧
    (clear_all_data now cutoff_date (s, db)).1.1.get_messages_per_hour cid =
      s.get_messages_per_hour cid ∧
    api_get_conversations limit (clear_all_data now cutoff_date (s, db)).1.1 =
      api_get_conversations limit s := by
  exact ⟨rfl, rfl, rfl, rfl, rfl, rfl, rfl⟩
